import Mathlib

/-!
Verification of the AddC streaming-clustering library (kernel functions,
centroid update rules, and the three-step cluster engine) against its
natural-language specification.

The embedding is shallow: vectors are lists of real numbers, numpy
elementwise arithmetic becomes `List.zipWith` / `List.map`, Python
exceptions become `Except PyErr`, and the external FastPair nearest-pair
index (a collaborator package, not part of this repository) is modelled
from its contract in the specification as a list of centroids with
replace / remove / insert and argmin-style queries.
-/

/-- Python exception kinds that the embedded operations can raise. -/
inductive PyErr where
  | typeError : PyErr
  | nameError : PyErr
  | zeroDivisionError : PyErr
deriving DecidableEq, Repr

/-- Decide whether an Except value is a success. -/
def exOk {ε α : Type} : Except ε α → Bool
  | Except.ok _ => true
  | Except.error _ => false

/- ===================== kernel.py ===================== -/

/-- Squared euclidean distance between two vectors
(scipy.spatial.distance.sqeuclidean). -/
noncomputable def sqeuclidean (x y : List ℝ) : ℝ :=
  ((List.zipWith (fun u v => u - v) x y).map (fun t => t ^ 2)).sum

/-- Euclidean distance between two vectors
(scipy.spatial.distance.euclidean). -/
noncomputable def euclidean (x y : List ℝ) : ℝ :=
  Real.sqrt (sqeuclidean x y)

/-- Gaussian kernel exactly as the source computes it:
`exp(-(dist.sqeuclidean(x, y)/2*sigma**2))`, i.e. the exponent is
`(d/2)*sigma^2` by left-to-right operator precedence. -/
noncomputable def gaussian (x y : List ℝ) (sigma : ℝ) : ℝ :=
  Real.exp (-(sqeuclidean x y / 2 * sigma ^ 2))

/-- Gaussian kernel as the documentation and the spec state it:
`exp(-||x - y||^2 / (2*sigma^2))`. Named separately so the source
formula can be compared against the documented one. -/
noncomputable def gaussianSpec (x y : List ℝ) (sigma : ℝ) : ℝ :=
  Real.exp (-(sqeuclidean x y / (2 * sigma ^ 2)))

/-- Circular (geostatistical) kernel exactly as the source computes it:
there is no piecewise branch, the closed form is applied for every input. -/
noncomputable def circular (x y : List ℝ) (sigma : ℝ) : ℝ :=
  (2 / Real.pi) * Real.arccos (-(euclidean x y / sigma)) -
    (2 / Real.pi) * (euclidean x y / sigma) *
      Real.sqrt (1 - (euclidean x y / sigma) ^ 2)

/-- Kernel-induced distance, the shortcut branch that `kernel_dist` takes
when the kernel is the Gaussian: `2 - 2*gaussian(x, y, sigma)`. -/
noncomputable def kernel_dist_gaussian (sigma : ℝ) (x y : List ℝ) : ℝ :=
  2 - 2 * gaussian x y sigma

/-- Kernel-induced distance, the general branch of `kernel_dist`:
`kern(x, x) - 2*kern(x, y) + kern(y, y)`. -/
noncomputable def kernel_dist_general (kern : List ℝ → List ℝ → ℝ) (x y : List ℝ) : ℝ :=
  kern x x - 2 * kern x y + kern y y

/- ===================== centroid.py ===================== -/

/-- Plain (non-kernel) cluster centroid: a center vector and an
absorption count (centroid.py, class Centroid). -/
structure Centroid where
  center : List ℝ
  count : ℤ

/-- Plain centroid absorb, exactly as `Centroid.__add__` computes it:
`center + ((other - array(other)) / (self.count+1))` where `other` has
already been converted to an array, so the displacement is elementwise
`other - other`. -/
noncomputable def Centroid.addPoint (self : Centroid) (other : List ℝ) : Centroid :=
  { center :=
      List.zipWith (fun u v => u + v) self.center
        ((List.zipWith (fun u v => u - v) other other).map
          (fun t => t / ((self.count : ℝ) + 1)))
    count := self.count + 1 }

/-- Plain centroid absorb as the specification states it: the running
mean `center + (point - center)/(count+1)`, count incremented. -/
noncomputable def Centroid.addPointSpec (self : Centroid) (other : List ℝ) : Centroid :=
  { center :=
      List.zipWith (fun u v => u + (v - u) / ((self.count : ℝ) + 1))
        self.center other
    count := self.count + 1 }

/-- Plain centroid merge, exactly as `Centroid.merge` behaves: the
isinstance guard passes for every centroid argument (KernelCentroid is a
subclass of Centroid), line 92 computes the weighted centers, and line 93
then references the unbound names `a` and `b`, so the call always raises
NameError. -/
noncomputable def Centroid.merge (_self _other : Centroid) : Except PyErr Centroid :=
  Except.error PyErr.nameError

/-- Plain centroid merge as the specification states it: the
count-weighted average of the centers, with counts added. -/
noncomputable def Centroid.mergeSpec (self other : Centroid) : Centroid :=
  { center :=
      List.zipWith
        (fun u v => (u * (self.count : ℝ) + v * (other.count : ℝ)) /
          ((self.count : ℝ) + (other.count : ℝ)))
        self.center other.center
    count := self.count + other.count }

/-- Kernel-weighted cluster centroid: a center vector, an absorption
count and a cumulative kernel mass (centroid.py, class KernelCentroid). -/
structure KernelCentroid where
  center : List ℝ
  count : ℤ
  size : ℝ

/-- Kernel centroid absorb with an explicit kernel, exactly as
`KernelCentroid.__add__` computes it: `size = self.size + kernel(self.center,
other.center)`, `center = x + (y - x) / size`, `count = self.count + 1`. -/
noncomputable def KernelCentroid.addWith (kern : List ℝ → List ℝ → ℝ)
    (self : KernelCentroid) (other : List ℝ) : KernelCentroid :=
  { center :=
      List.zipWith (fun u v => u + v) self.center
        ((List.zipWith (fun u v => u - v) other self.center).map
          (fun t => t / (self.size + kern self.center other)))
    count := self.count + 1
    size := self.size + kern self.center other }

/-- Kernel centroid absorb with the default kernel of the source, the
Gaussian kernel at sigma = 1 (`kernel = lambda self, a, b: gaussian(a, b)`). -/
noncomputable def KernelCentroid.addPoint (self : KernelCentroid) (other : List ℝ) :
    KernelCentroid :=
  KernelCentroid.addWith (fun a b => gaussian a b 1) self other

/-- Kernel centroid merge of two kernel centroids, exactly as the body of
`KernelCentroid.merge` computes it once the isinstance guard has passed:
`x, y = center_a*size_a, center_b*size_b`, `center = (x + y)/(size_a+size_b)`,
counts and sizes added. -/
noncomputable def KernelCentroid.mergeOk (self other : KernelCentroid) : KernelCentroid :=
  { center :=
      (List.zipWith (fun u v => u + v)
        (self.center.map (fun t => t * self.size))
        (other.center.map (fun t => t * other.size))).map
        (fun t => t / (self.size + other.size))
    count := self.count + other.count
    size := self.size + other.size }

/-- Dynamic centroid value, modelling the Python class hierarchy: a value
is either a plain Centroid or a KernelCentroid. -/
inductive PyCentroid where
  | plain : Centroid → PyCentroid
  | kern : KernelCentroid → PyCentroid

/-- Center vector of a dynamic centroid (both classes expose `.center`,
and both iterate over their center, so `array(other)` also yields it). -/
noncomputable def PyCentroid.center : PyCentroid → List ℝ
  | PyCentroid.plain c => c.center
  | PyCentroid.kern c => c.center

/-- Dynamically dispatched merge, as Python resolves `self.merge(other)`.
A plain receiver runs `Centroid.merge`, whose isinstance check passes for
both kinds (KernelCentroid is a subclass of Centroid) and whose body then
raises NameError on the unbound names `a` and `b`. A kernel receiver
checks `isinstance(other, KernelCentroid)`: a plain argument fails the
check with TypeError, a kernel argument is merged. -/
noncomputable def PyCentroid.merge : PyCentroid → PyCentroid → Except PyErr PyCentroid
  | PyCentroid.plain _, _ => Except.error PyErr.nameError
  | PyCentroid.kern a, PyCentroid.kern b =>
      Except.ok (PyCentroid.kern (KernelCentroid.mergeOk a b))
  | PyCentroid.kern _, PyCentroid.plain _ => Except.error PyErr.typeError

/-- Dynamically dispatched absorb, as Python resolves `self + other` /
`self.add(other)`. Neither `Centroid.__add__` nor `KernelCentroid.__add__`
performs a kind check: the plain variant converts the argument to an array
(succeeds, centroids are iterable over their center) and the kernel
variant reads `other.center` (both kinds have it). Neither raises. -/
noncomputable def PyCentroid.absorb : PyCentroid → PyCentroid → Except PyErr PyCentroid
  | PyCentroid.plain a, other =>
      Except.ok (PyCentroid.plain (Centroid.addPoint a other.center))
  | PyCentroid.kern a, other =>
      Except.ok (PyCentroid.kern (KernelCentroid.addPoint a other.center))

/- ===================== base.py (and the FastPair collaborator) ===================== -/

/-- Centroid interface the cluster engine consumes through duck typing:
equality test (Python eq, by center), absorb (`old.add(c)`), merge
(`a.merge(b)`) and the `size` attribute read by `trim`. -/
structure CentroidOps (C K : Type) where
  ceq : C → C → Bool
  cadd : C → C → C
  cmerge : C → C → C
  csize : C → K

/-- Modelled from the spec: the FastPair nearest-pair index is an external
collaborator (not code of this repository); per its contract it stores the
live centroids and supports insert, remove, replace and argmin queries.
The store is modelled as the list of stored centroids. -/
structure AddC (P C K : Type) where
  kmax : ℕ
  npoints : ℕ
  factory : P → C
  dist : C → C → K
  ops : CentroidOps C K
  points : List C

/-- Left fold of Python `min(..., key=...)`: keep the current best,
replace it only on a strictly smaller key. -/
def argminLoop {C K : Type} [LinearOrder K] (key : C → K) :
    C → List C → C
  | best, [] => best
  | best, x :: xs => argminLoop key (if key x < key best then x else best) xs

/-- Python `min(seq, key=...)` over a possibly empty sequence. -/
def pyMin {C K : Type} [LinearOrder K] (key : C → K) : List C → Option C
  | [] => none
  | x :: xs => some (argminLoop key x xs)

/-- All unordered pairs of list elements, each pair listed once in
position order. -/
def allPairs {C : Type} : List C → List (C × C)
  | [] => []
  | x :: xs => xs.map (fun y => (x, y)) ++ allPairs xs

/-- Modelled from the spec: the index's `closest_pair()` query returns the
globally closest pair of stored centroids under the configured distance. -/
def closestPair {C K : Type} [LinearOrder K] (dist : C → C → K)
    (pts : List C) : Option (C × C) :=
  pyMin (fun q => dist q.1 q.2) (allPairs pts)

/-- Modelled from the spec: the index's `replace(old, new)` substitutes
`new` for the stored centroid equal to `old`, preserving the store size. -/
def updatePoint {C : Type} (ceq : C → C → Bool) (old new : C) :
    List C → List C
  | [] => []
  | x :: xs => if ceq x old then new :: xs else x :: updatePoint ceq old new xs

/-- Modelled from the spec: the index's `remove(centroid)` evicts the
stored centroid equal to the argument. -/
def eraseFirst {C : Type} (ceq : C → C → Bool) (b : C) : List C → List C
  | [] => []
  | x :: xs => if ceq x b then xs else x :: eraseFirst ceq b xs

/-- Step 1 of the cycle (`AddC._step_one`): if the index is non-empty,
find the stored centroid nearest to the incoming one and replace it with
the absorbed centroid. -/
def stepOne {P C K : Type} [LinearOrder K] (ac : AddC P C K) (c : C) :
    AddC P C K :=
  if 0 < ac.points.length then
    match pyMin (fun p => ac.dist p c) ac.points with
    | some old =>
        { ac with points := updatePoint ac.ops.ceq old (ac.ops.cadd old c) ac.points }
    | none => ac
  else ac

/-- Step 2 of the cycle (`AddC._step_two`): when the index holds at least
`kmax` entries and more than one entry, remove one member of the globally
closest pair and replace the other with their merge. -/
def stepTwo {P C K : Type} [LinearOrder K] (ac : AddC P C K) : AddC P C K :=
  if ac.kmax ≤ ac.points.length ∧ 1 < ac.points.length then
    match closestPair ac.dist ac.points with
    | some (a, b) =>
        let pts := eraseFirst ac.ops.ceq b ac.points
        { ac with points := updatePoint ac.ops.ceq a (ac.ops.cmerge a b) pts }
    | none => ac
  else ac

/-- Step 3 of the cycle (`AddC._step_three`): insert the new singleton
centroid into the index. -/
def stepThree {P C K : Type} (ac : AddC P C K) (c : C) : AddC P C K :=
  { ac with points := ac.points ++ [c] }

/-- One full ingestion cycle (`AddC.__add__`): wrap the point as a fresh
centroid, run the three steps in order, then increment `npoints`. -/
def AddC.ingest {P C K : Type} [LinearOrder K] (ac : AddC P C K) (p : P) :
    AddC P C K :=
  let c := ac.factory p
  let ac3 := stepThree (stepTwo (stepOne ac c)) c
  { ac3 with npoints := ac3.npoints + 1 }

/-- Batch ingestion (`AddC.batch`): ingest the points one at a time, in
order. -/
def AddC.batch {P C K : Type} [LinearOrder K] (ac : AddC P C K)
    (points : List P) : AddC P C K :=
  points.foldl AddC.ingest ac

/-- A freshly constructed engine (`AddC.__init__`): empty index, zero
points seen. -/
def AddC.init {P C K : Type} (kmax : ℕ) (factory : P → C)
    (dist : C → C → K) (ops : CentroidOps C K) : AddC P C K :=
  { kmax := kmax, npoints := 0, factory := factory, dist := dist,
    ops := ops, points := [] }

/-- Significance filter (`AddC.trim`) over a stored centroid list:
collect the sizes of centroids with positive size; dividing their sum by
their number raises ZeroDivisionError when there are none; otherwise keep
the centroids whose size is at least `mean * p`. -/
def trimList {C K : Type} [LinearOrderedField K] (csize : C → K)
    (pts : List C) (p : K) : Except PyErr (List C) :=
  let sub := (pts.filter (fun x => decide ((0 : K) < csize x))).map csize
  if sub.length = 0 then Except.error PyErr.zeroDivisionError
  else Except.ok
    (pts.filter (fun x => decide (sub.sum / (sub.length : K) * p ≤ csize x)))

/-- Significance filter on the engine (`AddC.trim`), delegating to the
stored centroid list. -/
def AddC.trim {P C K : Type} [LinearOrderedField K] (ac : AddC P C K)
    (p : K) : Except PyErr (List C) :=
  trimList ac.ops.csize ac.points p

/- ===================== helper lemmas ===================== -/

/-- Elementwise form of the kernel absorb center update: adding the
scaled displacement vector equals the pointwise running-mean formula. -/
lemma zipWith_absorb_eq (sz : ℝ) : ∀ (a b : List ℝ),
    List.zipWith (fun u v => u + v) a
      ((List.zipWith (fun u v => u - v) b a).map (fun t => t / sz)) =
    List.zipWith (fun u v => u + (v - u) / sz) a b := by
  intro a
  induction a with
  | nil => intro b; simp
  | cons x xs ih =>
      intro b
      cases b with
      | nil => simp
      | cons y ys => simp [ih ys]

/-- Elementwise form of the weighted merge center: scaling, adding and
dividing equals the pointwise weighted-average formula. -/
lemma zipWith_merge_eq (sa sb : ℝ) : ∀ (a b : List ℝ),
    (List.zipWith (fun u v => u + v) (a.map (fun t => t * sa))
      (b.map (fun t => t * sb))).map (fun t => t / (sa + sb)) =
    List.zipWith (fun u v => (u * sa + v * sb) / (sa + sb)) a b := by
  intro a
  induction a with
  | nil => intro b; simp
  | cons x xs ih =>
      intro b
      cases b with
      | nil => simp
      | cons y ys => simp [ih ys, List.map_zipWith]

/-- Squared euclidean distance of a vector to itself is zero. -/
lemma sqeuclidean_self (x : List ℝ) : sqeuclidean x x = 0 := by
  induction x with
  | nil => simp [sqeuclidean]
  | cons a as ih =>
      simp only [sqeuclidean, List.zipWith_cons_cons, List.map_cons,
        List.sum_cons] at ih ⊢
      simp [ih]

/-- The Gaussian kernel of a vector with itself is one, for every sigma,
also with the source's precedence-skewed exponent. -/
lemma gaussian_self (x : List ℝ) (sigma : ℝ) : gaussian x x sigma = 1 := by
  simp [gaussian, sqeuclidean_self]

/- ===================== claim theorems ===================== -/

/-- C2: for every kernel centroid (center, count, size) and incoming
point p, absorbing p yields size_new = size + K(center, p), center_new =
center + (p - center)/size_new pointwise, and count_new = count + 1; the
operation is a pure function, so the original centroid is unchanged. -/
theorem claim_C2_kernel_absorb (kern : List ℝ → List ℝ → ℝ)
    (c : KernelCentroid) (p : List ℝ) :
    (c.addWith kern p).size = c.size + kern c.center p ∧
    (c.addWith kern p).count = c.count + 1 ∧
    (c.addWith kern p).center =
      List.zipWith (fun u v => u + (v - u) / (c.size + kern c.center p))
        c.center p := by
  refine ⟨rfl, rfl, ?_⟩
  simpa [KernelCentroid.addWith] using
    zipWith_absorb_eq (c.size + kern c.center p) c.center p

/-- C3: merging two kernel centroids with size_a + size_b nonzero yields
the size-weighted average of the centers pointwise, count_a + count_b,
and size_a + size_b (mass conservation). -/
theorem claim_C3_kernel_merge (a b : KernelCentroid)
    (h : a.size + b.size ≠ 0) :
    (a.mergeOk b).count = a.count + b.count ∧
    (a.mergeOk b).size = a.size + b.size ∧
    (a.mergeOk b).center =
      List.zipWith
        (fun u v => (u * a.size + v * b.size) / (a.size + b.size))
        a.center b.center := by
  refine ⟨rfl, rfl, ?_⟩
  simpa [KernelCentroid.mergeOk] using
    zipWith_merge_eq a.size b.size a.center b.center

/-- Witness for C3 at two concrete kernel centroids with sizes 1 and 1. -/
theorem claim_C3_witness :
    ((⟨[1], 1, 1⟩ : KernelCentroid).mergeOk ⟨[3], 2, 1⟩).count = 1 + 2 :=
  (claim_C3_kernel_merge ⟨[1], 1, 1⟩ ⟨[3], 2, 1⟩ (by norm_num)).1

/-- C4 is violated by the code: at centroid center (0,), count 0 and
incoming point (1,), the absorb of `Centroid.__add__` leaves the center
at (0,) because its displacement term `other - array(other)` cancels to
zero, while the specified running mean moves it to (1,). -/
theorem claim_C4_plain_absorb_bug :
    ((⟨[0], 0⟩ : Centroid).addPoint [1]).center = [0] ∧
    ((⟨[0], 0⟩ : Centroid).addPointSpec [1]).center = [1] ∧
    ((⟨[0], 0⟩ : Centroid).addPoint [1]).count = 1 ∧
    ([0] : List ℝ) ≠ [1] := by
  refine ⟨?_, ?_, rfl, ?_⟩
  · norm_num [Centroid.addPoint]
  · norm_num [Centroid.addPointSpec]
  · norm_num

/-- C5 is violated by the code: merging the plain centroids ((0,), 1) and
((2,), 1) raises NameError (the body references the unbound names `a` and
`b`) instead of returning the count-weighted average ((1,), 2). -/
theorem claim_C5_plain_merge_bug :
    Centroid.merge ⟨[0], 1⟩ ⟨[2], 1⟩ = Except.error PyErr.nameError ∧
    (Centroid.mergeSpec ⟨[0], 1⟩ ⟨[2], 1⟩).center = [1] ∧
    (Centroid.mergeSpec ⟨[0], 1⟩ ⟨[2], 1⟩).count = 2 := by
  refine ⟨rfl, ?_, rfl⟩
  norm_num [Centroid.mergeSpec]

/-- C6 is violated by the code: at x = (0,), y = (1,), sigma = 2 the
source's `exp(-(d/2*sigma**2))` evaluates to exp(-2), while the
documented `exp(-d/(2*sigma^2))` evaluates to exp(-1/8), and the two
differ. They agree only at the default sigma = 1. -/
theorem claim_C6_gaussian_bug :
    gaussian [0] [1] 2 = Real.exp (-2) ∧
    gaussianSpec [0] [1] 2 = Real.exp (-(1 / 8)) ∧
    gaussian [0] [1] 2 ≠ gaussianSpec [0] [1] 2 := by
  have hsq : sqeuclidean [0] [1] = 1 := by
    norm_num [sqeuclidean]
  refine ⟨?_, ?_, ?_⟩
  · rw [gaussian, hsq]; norm_num
  · rw [gaussianSpec, hsq]; norm_num
  · rw [gaussian, gaussianSpec, hsq]
    intro hcon
    have h2 := Real.exp_eq_exp.mp hcon
    norm_num at h2

/-- C7: for arbitrary vectors and any sigma, the Gaussian shortcut
distance 2 - 2*K(x,y) agrees with the general three-term formula
K(x,x) - 2*K(x,y) + K(y,y) to within 1e-8 (in fact exactly, because the
Gaussian similarity of any vector with itself is 1). -/
theorem claim_C7_gaussian_shortcut (sigma : ℝ) (x y : List ℝ) :
    |kernel_dist_gaussian sigma x y -
      kernel_dist_general (fun u v => gaussian u v sigma) x y| ≤ 1e-8 := by
  have h : kernel_dist_gaussian sigma x y =
      kernel_dist_general (fun u v => gaussian u v sigma) x y := by
    simp [kernel_dist_gaussian, kernel_dist_general, gaussian_self]
    ring
  rw [h, sub_self, abs_zero]
  norm_num

/-- C8 is violated by the code: `circular` has no piecewise branch. At
x = (0,), y = (1,), sigma = 1 the ratio r = 1 is not below 1, so the
claim requires 0, but the code evaluates the closed form and returns
(2/pi)*arccos(-1) - 0 = 2. (For r strictly greater than 1 the Python
code even raises a math domain error.) -/
theorem claim_C8_circular_bug :
    circular [0] [1] 1 = 2 ∧ (2 : ℝ) ≠ 0 := by
  have hsq : sqeuclidean [0] [1] = 1 := by norm_num [sqeuclidean]
  have he : euclidean [0] [1] = 1 := by rw [euclidean, hsq, Real.sqrt_one]
  constructor
  · rw [circular, he]
    norm_num [Real.arccos_neg_one]
    field_simp
  · norm_num

/-- C9 as stated is false: absorbing a plain centroid into a kernel
centroid succeeds (no type check is performed by `__add__`), as this
concrete evaluation shows. -/
theorem claim_C9_counterexample :
    exOk (PyCentroid.absorb (PyCentroid.kern ⟨[1], 1, 1⟩)
      (PyCentroid.plain ⟨[0], 1⟩)) = true := rfl

/-- C9 (amended): across the two centroid kinds, only the merge with a
kernel receiver and plain argument fails with a type-mismatch error; the
merge with a plain receiver fails with a name error (its body references
unbound names before any result is produced); and absorb succeeds in both
directions, performing no kind check. -/
theorem claim_C9_cross_kind (a : Centroid) (b : KernelCentroid) :
    PyCentroid.merge (PyCentroid.kern b) (PyCentroid.plain a) =
      Except.error PyErr.typeError ∧
    PyCentroid.merge (PyCentroid.plain a) (PyCentroid.kern b) =
      Except.error PyErr.nameError ∧
    exOk (PyCentroid.absorb (PyCentroid.plain a) (PyCentroid.kern b)) = true ∧
    exOk (PyCentroid.absorb (PyCentroid.kern b) (PyCentroid.plain a)) = true :=
  ⟨rfl, rfl, rfl, rfl⟩

/- ===================== engine length lemmas ===================== -/

/-- Replacing a stored centroid preserves the store size. -/
lemma updatePoint_length {C : Type} (ceq : C → C → Bool) (old nw : C) :
    ∀ l : List C, (updatePoint ceq old nw l).length = l.length := by
  intro l
  induction l with
  | nil => rfl
  | cons x xs ih =>
      simp only [updatePoint]
      split
      · simp
      · simp [ih]

/-- Removing a stored centroid that tests equal to some entry shrinks the
store by one. -/
lemma eraseFirst_length {C : Type} (ceq : C → C → Bool) (b : C) :
    ∀ l : List C, (∃ x ∈ l, ceq x b = true) →
      (eraseFirst ceq b l).length = l.length - 1 := by
  intro l
  induction l with
  | nil => rintro ⟨x, hx, _⟩; cases hx
  | cons y ys ih =>
      rintro ⟨x, hx, hceq⟩
      simp only [eraseFirst]
      rcases List.mem_cons.mp hx with rfl | hmem
      · rw [if_pos hceq]; simp
      · split
        · simp
        · have := ih ⟨x, hmem, hceq⟩
          simp only [List.length_cons, this]
          have hpos : 0 < ys.length := List.length_pos.mpr
            (List.ne_nil_of_mem hmem)
          omega

/-- Python min with a key returns an element of the scanned sequence. -/
lemma argminLoop_mem {C K : Type} [LinearOrder K] (key : C → K) :
    ∀ (l : List C) (best : C), argminLoop key best l ∈ best :: l := by
  intro l
  induction l with
  | nil => intro best; simp [argminLoop]
  | cons x xs ih =>
      intro best
      have h := ih (if key x < key best then x else best)
      simp only [argminLoop]
      rcases List.mem_cons.mp h with h1 | h1
      · rw [h1]
        split
        · exact List.mem_cons_of_mem _ (List.mem_cons_self _ _)
        · exact List.mem_cons_self _ _
      · exact List.mem_cons_of_mem _ (List.mem_cons_of_mem _ h1)

/-- A successful min query returns a member of the list. -/
lemma pyMin_mem {C K : Type} [LinearOrder K] (key : C → K)
    (l : List C) (m : C) (h : pyMin key l = some m) : m ∈ l := by
  cases l with
  | nil => simp [pyMin] at h
  | cons x xs =>
      simp only [pyMin, Option.some.injEq] at h
      exact h ▸ argminLoop_mem key xs x

/-- Both components of an enumerated pair are list members. -/
lemma allPairs_mem {C : Type} :
    ∀ (l : List C) (q : C × C), q ∈ allPairs l → q.1 ∈ l ∧ q.2 ∈ l := by
  intro l
  induction l with
  | nil => intro q hq; simp [allPairs] at hq
  | cons x xs ih =>
      intro q hq
      simp only [allPairs, List.mem_append, List.mem_map] at hq
      rcases hq with ⟨y, hy, rfl⟩ | hq
      · exact ⟨List.mem_cons_self _ _, List.mem_cons_of_mem _ hy⟩
      · have h := ih q hq
        exact ⟨List.mem_cons_of_mem _ h.1, List.mem_cons_of_mem _ h.2⟩

/-- The second member of a closest pair is stored in the index. -/
lemma closestPair_snd_mem {C K : Type} [LinearOrder K] (dist : C → C → K)
    (pts : List C) (a b : C) (h : closestPair dist pts = some (a, b)) :
    b ∈ pts :=
  (allPairs_mem pts (a, b) (pyMin_mem _ _ _ h)).2

/-- With at least two stored centroids, the closest-pair query succeeds. -/
lemma closestPair_isSome {C K : Type} [LinearOrder K] (dist : C → C → K) :
    ∀ pts : List C, 2 ≤ pts.length → ∃ q, closestPair dist pts = some q := by
  intro pts h
  match pts, h with
  | x :: y :: rest, _ =>
      simp only [closestPair, allPairs, List.map_cons, List.cons_append,
        pyMin]
      exact ⟨_, rfl⟩

/-- Step 1 never changes the number of stored centroids: it only replaces
the nearest one. -/
lemma stepOne_length {P C K : Type} [LinearOrder K] (ac : AddC P C K)
    (c : C) : (stepOne ac c).points.length = ac.points.length := by
  unfold stepOne
  split
  · cases hpm : pyMin (fun p => ac.dist p c) ac.points with
    | none => rfl
    | some old => simp [updatePoint_length]
  · rfl

/-- Step 1 leaves every engine field except the store unchanged. -/
lemma stepOne_fields {P C K : Type} [LinearOrder K] (ac : AddC P C K)
    (c : C) : (stepOne ac c).kmax = ac.kmax ∧ (stepOne ac c).ops = ac.ops := by
  unfold stepOne
  split
  · cases hpm : pyMin (fun p => ac.dist p c) ac.points with
    | none => exact ⟨rfl, rfl⟩
    | some old => exact ⟨rfl, rfl⟩
  · exact ⟨rfl, rfl⟩

/-- Step 2 shrinks the store by one exactly when its guard fires
(at least kmax entries and more than one entry). -/
lemma stepTwo_length {P C K : Type} [LinearOrder K] (ac : AddC P C K)
    (hrefl : ∀ x, ac.ops.ceq x x = true) :
    (stepTwo ac).points.length =
      if ac.kmax ≤ ac.points.length ∧ 1 < ac.points.length
      then ac.points.length - 1 else ac.points.length := by
  unfold stepTwo
  by_cases hg : ac.kmax ≤ ac.points.length ∧ 1 < ac.points.length
  · obtain ⟨q, hq⟩ := closestPair_isSome ac.dist ac.points (by omega)
    obtain ⟨a, b⟩ := q
    rw [if_pos hg, if_pos hg, hq]
    simp only [updatePoint_length]
    exact eraseFirst_length _ _ _ ⟨b, closestPair_snd_mem _ _ _ _ hq, hrefl b⟩
  · rw [if_neg hg, if_neg hg]

/-- Step 2 leaves every engine field except the store unchanged. -/
lemma stepTwo_fields {P C K : Type} [LinearOrder K] (ac : AddC P C K) :
    (stepTwo ac).kmax = ac.kmax ∧ (stepTwo ac).ops = ac.ops := by
  unfold stepTwo
  split
  · cases hq : closestPair ac.dist ac.points with
    | none => exact ⟨rfl, rfl⟩
    | some q => obtain ⟨a, b⟩ := q; simp [hq]
  · exact ⟨rfl, rfl⟩

/-- One ingestion cycle maps a store of length L to
(if kmax <= L and 1 < L then L - 1 else L) + 1. -/
lemma ingest_length {P C K : Type} [LinearOrder K] (ac : AddC P C K)
    (p : P) (hrefl : ∀ x, ac.ops.ceq x x = true) :
    (AddC.ingest ac p).points.length =
      (if ac.kmax ≤ ac.points.length ∧ 1 < ac.points.length
       then ac.points.length - 1 else ac.points.length) + 1 := by
  unfold AddC.ingest stepThree
  simp only [List.length_append, List.length_cons, List.length_nil]
  have h1 := stepOne_fields ac (ac.factory p)
  have h2 := stepTwo_length (stepOne ac (ac.factory p))
    (by rw [h1.2]; exact hrefl)
  rw [h2, h1.1, stepOne_length]

/-- One ingestion cycle preserves the capacity bound and the centroid
operations. -/
lemma ingest_fields {P C K : Type} [LinearOrder K] (ac : AddC P C K)
    (p : P) : (AddC.ingest ac p).kmax = ac.kmax ∧
      (AddC.ingest ac p).ops = ac.ops := by
  unfold AddC.ingest stepThree
  have h1 := stepOne_fields ac (ac.factory p)
  have h2 := stepTwo_fields (stepOne ac (ac.factory p))
  exact ⟨by rw [h2.1, h1.1], by rw [h2.2, h1.2]⟩

/-- Batch invariant: if the store length is min m (max kmax 2), ingesting
l more points makes it min (m + length l) (max kmax 2). -/
lemma batch_length_aux {P C K : Type} [LinearOrder K] :
    ∀ (l : List P) (ac : AddC P C K) (m : ℕ),
      (∀ x, ac.ops.ceq x x = true) →
      ac.points.length = min m (max ac.kmax 2) →
      (AddC.batch ac l).points.length =
        min (m + l.length) (max ac.kmax 2) := by
  intro l
  induction l with
  | nil =>
      intro ac m hrefl hm
      simpa [AddC.batch] using hm
  | cons p ps ih =>
      intro ac m hrefl hm
      have hstep : (AddC.ingest ac p).points.length =
          min (m + 1) (max ac.kmax 2) := by
        rw [ingest_length ac p hrefl, hm]
        split
        · next hg => omega
        · next hg =>
            rw [not_and_or] at hg
            omega
      have hf := ingest_fields ac p
      have hrec := ih (AddC.ingest ac p) (m + 1)
        (by rw [hf.2]; exact hrefl) (by rw [hf.1]; exact hstep)
      have hb : AddC.batch ac (p :: ps) = AddC.batch (AddC.ingest ac p) ps := rfl
      rw [hb, hrec, hf.1]
      congr 1
      simp [List.length_cons]
      omega

/-- Concrete centroid operations over the integers, used to instantiate
the parametric engine on decidable inputs. -/
def testOps : CentroidOps ℤ ℤ :=
  { ceq := fun a b => a == b
    cadd := fun a b => a + b
    cmerge := fun a b => a + b
    csize := fun a => a }

/-- A freshly constructed engine over the integer instance with squared
distance. -/
def testEngine (kmax : ℕ) : AddC ℤ ℤ ℤ :=
  AddC.init kmax (fun p : ℤ => p) (fun a b : ℤ => (a - b) ^ 2) testOps

/-- C1 as stated is false: a freshly constructed engine with kmax = 1
holds 2 live centroids after ingesting 2 points, not min(2, 1) = 1,
because the merge step additionally requires more than one stored entry. -/
theorem claim_C1_counterexample :
    (AddC.batch (testEngine 1) [0, 1]).points.length ≠ min 2 1 := by decide

/-- C1 (amended): for every positive kmax and every stream of n points
ingested into a freshly constructed engine (whose centroid equality is
reflexive, as Python tuple equality is), the live centroid count equals
min(n, max(kmax, 2)); for kmax at least 2 this is the claimed min(n, kmax),
while for kmax = 1 the count reaches 2. -/
theorem claim_C1_capacity (P C K : Type) [LinearOrder K] (kmax : ℕ)
    (hk : 1 ≤ kmax) (factory : P → C) (dist : C → C → K)
    (ops : CentroidOps C K) (hrefl : ∀ x, ops.ceq x x = true)
    (points : List P) :
    (AddC.batch (AddC.init kmax factory dist ops) points).points.length =
      min points.length (max kmax 2) := by
  have h := batch_length_aux points (AddC.init kmax factory dist ops) 0
    hrefl (by simp [AddC.init])
  simpa [AddC.init] using h

/-- Witness for C1 at the integer instance: kmax = 3 and five points
yield min 5 (max 3 2) = 3 live centroids. -/
theorem claim_C1_witness :
    (AddC.batch (testEngine 3) [0, 1, 2, 3, 4]).points.length =
      min 5 (max 3 2) := by
  have h := claim_C1_capacity ℤ ℤ ℤ 3 (by decide) (fun p : ℤ => p)
    (fun a b : ℤ => (a - b) ^ 2) testOps
    (fun x => by simp [testOps]) [0, 1, 2, 3, 4]
  simpa [testEngine] using h

/-- C10: trim raises ZeroDivisionError exactly when no stored centroid
has size strictly greater than 0 (in particular on a freshly constructed
empty engine), and returns normally exactly when at least one stored
centroid has positive size. -/
theorem claim_C10_trim (P C K : Type) [LinearOrderedField K]
    (ac : AddC P C K) (p : K) :
    (AddC.trim ac p = Except.error PyErr.zeroDivisionError ↔
      ∀ x ∈ ac.points, ¬ (0 : K) < ac.ops.csize x) ∧
    (exOk (AddC.trim ac p) = true ↔
      ∃ x ∈ ac.points, (0 : K) < ac.ops.csize x) := by
  have hiff : ((ac.points.filter fun x =>
      decide ((0 : K) < ac.ops.csize x)).map ac.ops.csize).length = 0 ↔
      ∀ x ∈ ac.points, ¬ (0 : K) < ac.ops.csize x := by
    rw [List.length_map, List.length_eq_zero, List.filter_eq_nil_iff]
    simp
  unfold AddC.trim trimList
  by_cases h : ((ac.points.filter fun x =>
      decide ((0 : K) < ac.ops.csize x)).map ac.ops.csize).length = 0
  · rw [if_pos h]
    refine ⟨⟨fun _ => hiff.mp h, fun _ => rfl⟩, ?_⟩
    constructor
    · intro hcontra
      simp [exOk] at hcontra
    · rintro ⟨x, hx, hpos⟩
      exact absurd hpos (hiff.mp h x hx)
  · rw [if_neg h]
    constructor
    · constructor
      · intro hcontra
        simp at hcontra
      · intro hall
        exact absurd (hiff.mpr hall) h
    · constructor
      · intro _
        by_contra hne
        push_neg at hne
        exact h (hiff.mpr (fun x hx => not_lt.mpr (hne x hx)))
      · intro _
        rfl

/-- Concrete centroid operations over the rationals, for instantiating
the trim query on decidable inputs. -/
def testOpsQ : CentroidOps ℚ ℚ :=
  { ceq := fun a b => a == b
    cadd := fun a b => a + b
    cmerge := fun a b => a + b
    csize := fun a => a }

/-- A concrete engine state over the rationals holding two centroids, one
of positive size and one of zero size. -/
def testTrimState : AddC ℚ ℚ ℚ :=
  { kmax := 2, npoints := 2, factory := fun p => p,
    dist := fun a b => (a - b) ^ 2, ops := testOpsQ, points := [1, 0] }

/-- Witness for C10: on a store holding a centroid of positive size, trim
returns normally. -/
theorem claim_C10_witness : exOk (AddC.trim testTrimState 1) = true :=
  (claim_C10_trim ℚ ℚ ℚ testTrimState 1).2.mpr ⟨1, by decide, by decide⟩
